import Mathlib

/-!
Shallow embedding of the MLIO pack core (`src/mlio/io/pack.py`,
`src/mlio/io/serializers/_registry.py`, `src/mlio/io/context_dependencies/*`,
`src/ml_utils/io/compat.py`) together with theorems settling the frozen
claims about the natural-language specification.

Conventions of the embedding:
* Python byte strings are `List Nat`; streams are materialised as the byte
  list that was written/read.
* A ZIP archive is the append-ordered list of its entries; reading a name
  resolves to the *last* entry with that name (ZipFile semantics).
* Python exceptions become the `PyError` inductive; a raising method of a
  mutable object becomes a function returning `Except PyError Unit × State`
  (the error status together with the state after the call).
* External collaborators that are not part of this repository (hashlib's
  SHA-256, `packaging`'s specifier sets, `importlib` module lookup, and the
  success of a raw ZIP append) are gathered in `ExternalEnv` and passed as a
  parameter; theorems state their assumptions about them explicitly.
* Manifest timestamps and the informational `meta` block are outside every
  claim and are omitted from the manifest model.
-/

set_option autoImplicit false

namespace MLIO

/-- A parsed JSON value (numbers restricted to integers; no claim involves
float payloads). JSON objects are association lists in document order. -/
inductive JValue where
  | null : JValue
  | bool : Bool → JValue
  | num : Int → JValue
  | str : String → JValue
  | arr : List JValue → JValue
  | obj : List (String × JValue) → JValue
deriving Repr

/-- The Python exception kinds surfaced by the modelled code
(`src/mlio/io/exc.py` plus the registry/stdlib exceptions). -/
inductive PyError where
  | slotKeyError : PyError
  | wrongFormat : PyError
  | dependenciesNotSatisfied : List String → PyError
  | slotChecksumError : PyError
  | unknownObjectType : PyError
  | unknownSerializer : PyError
  | importError : PyError
  | attributeError : PyError
  | typeError : PyError
  | valueError : PyError
  | invalidSpecifier : PyError
  | keyError : PyError
  | ioError : PyError
deriving DecidableEq, Repr

/-- A parsed PEP 440 specifier set: a membership predicate on version
strings together with its normalised string rendering. -/
structure SpecSet where
  contains : String → Bool
  render : String

/-- The collaborators external to this repository: `hashlib.sha256`
stream hashing, `packaging.specifiers.SpecifierSet` parsing, the
`importlib` view of installed module versions, and whether a raw ZIP
payload append succeeds. -/
structure ExternalEnv where
  hash : List Nat → String
  parseSpecs : String → Option SpecSet
  installed : String → Option String
  writeOk : String → List Nat → Bool

/-- Association-list lookup, mirroring Python `dict.get`. -/
def lookupAL {β : Type _} (l : List (String × β)) (k : String) : Option β :=
  (l.find? (fun p => p.1 = k)).map (fun p => p.2)

/-- Python `d[k] = v`: replace in place when the key exists, else append. -/
def insertAL {β : Type _} (l : List (String × β)) (k : String) (v : β) : List (String × β) :=
  if l.any (fun p => p.1 = k) then
    l.map (fun p => if p.1 = k then (k, v) else p)
  else l ++ [(k, v)]

/-- Python dict built from a sequence of key/value pairs (later value for a
duplicated key wins, position of the first occurrence is kept). -/
def mkDict {β : Type _} (l : List (String × β)) : List (String × β) :=
  l.foldl (fun acc p => insertAL acc p.1 p.2) []

/-- Python `del d[k]`. -/
def eraseAL {β : Type _} (l : List (String × β)) (k : String) : List (String × β) :=
  l.filter (fun p => p.1 ≠ k)

mutual

/-- Naive JSON rendering (no escaping); only its byte length is ever
observable through the claims, via entry liveness. -/
def jsonRender : JValue → String
  | .null => "null"
  | .bool true => "true"
  | .bool false => "false"
  | .num n => toString n
  | .str s => "\"" ++ s ++ "\""
  | .arr xs => "[" ++ jsonRenderArr xs ++ "]"
  | .obj fs => "\x7b" ++ jsonRenderObj fs ++ "\x7d"

def jsonRenderArr : List JValue → String
  | [] => ""
  | [x] => jsonRender x
  | x :: xs => jsonRender x ++ "," ++ jsonRenderArr xs

def jsonRenderObj : List (String × JValue) → String
  | [] => ""
  | [(k, v)] => "\"" ++ k ++ "\":" ++ jsonRender v
  | (k, v) :: fs => "\"" ++ k ++ "\":" ++ jsonRender v ++ "," ++ jsonRenderObj fs

end

/-- Python `str()` of a JSON scalar (used by `"{}".format(...)` style
formatting in ids and pack object names). -/
def pyStr : JValue → String
  | .str s => s
  | .num n => toString n
  | .bool true => "True"
  | .bool false => "False"
  | .null => "None"
  | v => jsonRender v

/-- Python truthiness of a JSON value. -/
def jTruthy : JValue → Bool
  | .null => false
  | .bool b => b
  | .num n => n ≠ 0
  | .str s => s ≠ ""
  | .arr xs => !xs.isEmpty
  | .obj fs => !fs.isEmpty

/-- The codepoint encoding of a string used for stored manifest bytes. -/
def strBytes (s : String) : List Nat :=
  s.data.map Char.toNat

/-- A context dependency instance
(`mlio.io.context_dependencies.base.ContextDependencyBase`): its stable id,
its type tag, its jsonable parameters, and its `is_satisfied` check run
against an execution environment (which may raise, e.g. `ImportError`). -/
structure ContextDep where
  depId : String
  depType : String
  params : List (String × JValue)
  satisfied : ExternalEnv → Except PyError Bool

/-- `get_installed_module_version` (module_version.py): import the module
and read its version; an unimportable module raises `ImportError`. -/
def getInstalledModuleVersion (ext : ExternalEnv) (moduleName : String) :
    Except PyError String :=
  match ext.installed moduleName with
  | none => .error .importError
  | some v => .ok v

/-- `ModuleVersionContextDependency.is_satisfied`: the installed version of
the module must be in the specifier set; the import failure propagates. -/
def moduleVersionIsSatisfied (moduleName : String) (specs : SpecSet)
    (ext : ExternalEnv) : Except PyError Bool :=
  match getInstalledModuleVersion ext moduleName with
  | .error e => .error e
  | .ok v => .ok (specs.contains v)

/-- `ModuleVersionContextDependency.dependency_id()`:
`"module-version:{module_name}-{version_specs}"` with the *normalised*
specifier-set rendering. -/
def moduleVersionId (moduleName : String) (specs : SpecSet) : String :=
  "module-version:" ++ moduleName ++ "-" ++ specs.render

/-- Build the `ModuleVersionContextDependency` value (constructor +
`set_params`): raw params retained for `to_dict`, parsed specs for checks. -/
def mkModuleVersionDep (moduleNameV : JValue) (rawSpecs : String)
    (specs : SpecSet) : ContextDep :=
  { depId := moduleVersionId (pyStr moduleNameV) specs
    depType := "module-version"
    params := [("module_name", moduleNameV), ("version_specs", .str rawSpecs)]
    satisfied := moduleVersionIsSatisfied (pyStr moduleNameV) specs }

/-- A dependency-type constructor as held by the dependency registry:
`cls.from_dict` applied to the declared parameter object. -/
def DepCtor : Type :=
  ExternalEnv → List (String × JValue) → Except PyError ContextDep

/-- `ModuleVersionContextDependency.from_dict` through
`ContextDependencyBase.from_dict`: check the `type` tag, pass the remaining
entries as keyword arguments to the constructor (exactly `module_name` and
`version_specs` are accepted), reject a falsy module name (`ValueError`),
parse the specifier set (`InvalidSpecifier` on bad syntax, attribute error
on a non-string). -/
def moduleVersionCtor : DepCtor := fun ext fields =>
  match lookupAL fields "type" with
  | some (.str "module-version") =>
    let params := eraseAL fields "type"
    if params.length = 2 then
      match lookupAL params "module_name", lookupAL params "version_specs" with
      | some mn, some (.str vs) =>
        if jTruthy mn then
          match ext.parseSpecs vs with
          | none => .error .invalidSpecifier
          | some specs => .ok (mkModuleVersionDep mn vs specs)
        else .error .valueError
      | some _, some _ => .error .attributeError
      | _, _ => .error .typeError
    else .error .typeError
  | _ => .error .valueError

/-- The process-wide dependency-type registry (tag → constructor);
`mlio` registers exactly the module-version type. -/
def DepRegistry : Type := List (String × DepCtor)

def mlioDepRegistry : DepRegistry := [("module-version", moduleVersionCtor)]

/-- A serializer (codec) value
(`mlio.io.serializers.base.SerializerBase`): type tag, the object test, the
encoder (with the context dependencies it records while encoding), the
decoder, and the equivalence under which decode inverts encode. -/
structure Serializer (α : Type) where
  tag : String
  canSerialize : α → Bool
  dump : α → Except PyError (List Nat)
  dumpDeps : α → List ContextDep
  load : List Nat → Except PyError α
  equiv : α → α → Prop

/-- `find_suitable_serializer` (serializers/_registry.py): first registered
serializer, in priority order, that accepts the object. -/
def findSuitableSerializer {α : Type} (reg : List (Serializer α)) (obj : α) :
    Except PyError (Serializer α) :=
  match reg.find? (fun s => s.canSerialize obj) with
  | some s => .ok s
  | none => .error .unknownObjectType

/-- `get_serializer_by_type` (serializers/_registry.py): exact tag lookup. -/
def getSerializerByType {α : Type} (reg : List (Serializer α)) (tag : String) :
    Except PyError (Serializer α) :=
  match reg.find? (fun s => s.tag = tag) with
  | some s => .ok s
  | none => .error .unknownSerializer

/-- `register_serializer` (serializers/_registry.py): store under the tag
and move to the front of the ordered registry (highest priority). -/
def registerSerializer {α : Type} (reg : List (Serializer α)) (s : Serializer α) :
    List (Serializer α) :=
  s :: reg.filter (fun t => t.tag ≠ s.tag)

/-- `PackManifestSlot` (pack.py): unique slot key, the serializer instance,
the payload SHA-256 (as stored), and the dependency dict keyed by id. -/
structure Slot (α : Type) where
  slot_key : String
  serializer : Serializer α
  hash : String
  deps : List (String × ContextDep)

/-- `PackManifestSlot.pack_object`: `"{hash}.slot"`. -/
def Slot.packObject {α : Type} (s : Slot α) : String :=
  s.hash ++ ".slot"

/-- `PackManifestSlot.find_unsatisfied_dependencies`: the ids of the
dependencies whose `is_satisfied()` is false, in dict order; a raising
`is_satisfied` propagates its exception. -/
def findUnsatisfiedDependencies (ext : ExternalEnv) :
    List (String × ContextDep) → Except PyError (List String)
  | [] => .ok []
  | d :: rest =>
    match d.2.satisfied ext with
    | .error e => .error e
    | .ok sat =>
      match findUnsatisfiedDependencies ext rest with
      | .error e => .error e
      | .ok tail => .ok (if sat then tail else d.1 :: tail)

/-- `PackManifest` (pack.py): the ordered slot dict and the ordered
dependency dict (timestamps carry no claim content and are omitted). -/
structure Manifest (α : Type) where
  slots : List (String × Slot α)
  deps : List (String × ContextDep)

def Manifest.empty {α : Type} : Manifest α := ⟨[], []⟩

/-- The dependency-merge loop of `PackManifest.insert_slot`: each of the
slot's dependencies is added only when its id is not yet present. -/
def extendDeps (base : List (String × ContextDep))
    (ds : List (String × ContextDep)) : List (String × ContextDep) :=
  ds.foldl (fun acc p => if (lookupAL acc p.1).isSome then acc else acc ++ [p]) base

/-- `PackManifest.insert_slot`: key collision raises `SlotKeyError`;
the slot's dependencies extend the manifest's (an existing id wins). -/
def Manifest.insertSlot {α : Type} (m : Manifest α) (slot : Slot α) :
    Except PyError (Manifest α) :=
  if (lookupAL m.slots slot.slot_key).isSome then .error .slotKeyError
  else
    .ok { slots := m.slots ++ [(slot.slot_key, slot)]
          deps := extendDeps m.deps slot.deps }

/-- The set (as a list) of dependency ids referenced by some slot. -/
def referencedDepIds {α : Type} (slots : List (String × Slot α)) : List String :=
  slots.foldl (fun acc p => acc ++ p.2.deps.map (fun d => d.1)) []

/-- `PackManifest.remove_slot` followed by
`_cleanup_dangling_dependencies`: missing key raises `SlotKeyError`; all
dependencies no longer referenced by a remaining slot are deleted. -/
def Manifest.removeSlot {α : Type} (m : Manifest α) (key : String) :
    Except PyError (Manifest α) :=
  if (lookupAL m.slots key).isNone then .error .slotKeyError
  else
    let slots' := eraseAL m.slots key
    .ok { slots := slots'
          deps := m.deps.filter (fun d => d.1 ∈ referencedDepIds slots') }

/-- `PackManifestSlot.to_dict`. -/
def Slot.toDict {α : Type} (s : Slot α) : JValue :=
  .obj [("serialized_sha256_hash", .str s.hash),
        ("serializer", .str s.serializer.tag),
        ("dependencies", .arr (s.deps.map (fun d => .str d.1)))]

/-- `PackManifest.to_dict` (the `meta` block of timestamps and interpreter
version is informational only and omitted here). -/
def Manifest.toDict {α : Type} (m : Manifest α) : JValue :=
  .obj [("version", .num 2),
        ("dependencies", .obj (m.deps.map (fun d => (d.2.depId, .obj (d.2.params ++ [("type", .str d.2.depType)]))))),
        ("slots", .obj (m.slots.map (fun s => (s.1, s.2.toDict))))]

/-- The serialized manifest entry content: `json.dumps(manifest.to_dict())`. -/
def manifestBytes {α : Type} (m : Manifest α) : List Nat :=
  strBytes (jsonRender m.toDict)

def manifestName : String := "manifest.json"

/-- A ZIP entry: name and content bytes, in append order in the archive. -/
structure ZEntry where
  name : String
  content : List Nat

/-- ZipFile duplicate-name semantics: reading a name resolves to the last
entry carrying it. -/
def lastEntry? (archive : List ZEntry) (n : String) : Option ZEntry :=
  (archive.filter (fun e => e.name = n)).getLast?

/-- A non-manifest entry name is *live* iff its effective (last) entry has
non-zero size; this is the membership test of `_existing_pack_objects`. -/
def isLive (archive : List ZEntry) (n : String) : Bool :=
  n ≠ manifestName &&
    (match lastEntry? archive n with
     | some e => !e.content.isEmpty
     | none => false)

/-- The distinct live non-manifest entry names (`_existing_pack_objects`). -/
def liveNames (archive : List ZEntry) : List String :=
  ((archive.map (fun e => e.name)).dedup).filter (fun n => isLive archive n)

/-- The pack: the archive entries written so far and the in-memory
manifest. -/
structure PackState (α : Type) where
  archive : List ZEntry
  manifest : Manifest α

/-- `_update_manifest`: rewrite (append) the `manifest.json` entry. -/
def writeManifestEntry {α : Type} (archive : List ZEntry) (m : Manifest α) :
    List ZEntry :=
  archive ++ [⟨manifestName, manifestBytes m⟩]

/-- A freshly opened pack on an empty stream: empty manifest, immediately
persisted (`_load_or_create_manifest`, fresh branch). -/
def PackState.fresh (α : Type) : PackState α :=
  ⟨writeManifestEntry [] (Manifest.empty (α := α)), Manifest.empty⟩

/-- `Pack.has_slot`. -/
def Pack.hasSlot {α : Type} (p : PackState α) (key : String) : Bool :=
  (lookupAL p.manifest.slots key).isSome

/-- The `PackManifestSlot` value constructed inside `Pack.dump`: the key,
the chosen serializer, the payload hash, and the dependency dict built from
the dependencies the serializer recorded while encoding. -/
def dumpSlot {α : Type} (ext : ExternalEnv) (ser : Serializer α) (obj : α)
    (key : String) (bytes : List Nat) : Slot α :=
  ⟨key, ser, ext.hash bytes, mkDict ((ser.dumpDeps obj).map (fun d => (d.depId, d)))⟩

/-- `Pack.dump(slot_key, obj)`: duplicate key → `SlotKeyError`; serializer
selection (`UnknownObjectType` when none); encode to a temp buffer (may
raise); hash; skip the payload append when `"{hash}.slot"` is already live
(content-addressed dedup), otherwise append it (an I/O failure there
propagates before any manifest mutation); insert the slot and rewrite the
manifest entry. The returned pair is (raise status, state after the call). -/
def Pack.dump {α : Type} (ext : ExternalEnv) (reg : List (Serializer α))
    (p : PackState α) (key : String) (obj : α) :
    Except PyError Unit × PackState α :=
  if Pack.hasSlot p key then (.error .slotKeyError, p)
  else
    match findSuitableSerializer reg obj with
    | .error e => (.error e, p)
    | .ok ser =>
      match ser.dump obj with
      | .error e => (.error e, p)
      | .ok bytes =>
        let slot : Slot α := dumpSlot ext ser obj key bytes
        if isLive p.archive slot.packObject then
          match p.manifest.insertSlot slot with
          | .error e => (.error e, p)
          | .ok m' => (.ok (), ⟨writeManifestEntry p.archive m', m'⟩)
        else
          if ext.writeOk slot.packObject bytes then
            let archive1 := p.archive ++ [⟨slot.packObject, bytes⟩]
            match p.manifest.insertSlot slot with
            | .error e => (.error e, ⟨archive1, p.manifest⟩)
            | .ok m' => (.ok (), ⟨writeManifestEntry archive1 m', m'⟩)
          else (.error .ioError, p)

/-- `Pack.load(slot_key)`: missing key → `SlotKeyError`; evaluate every
dependency (an unsatisfied set raises `DependenciesNotSatisfied` with the
offending ids, a raising check propagates); open the payload entry and
stream-hash it (`SlotChecksumError` on mismatch); re-open it and decode. -/
def Pack.load {α : Type} (ext : ExternalEnv) (p : PackState α) (key : String) :
    Except PyError α :=
  match lookupAL p.manifest.slots key with
  | none => .error .slotKeyError
  | some slot =>
    match findUnsatisfiedDependencies ext slot.deps with
    | .error e => .error e
    | .ok unsat =>
      if unsat.isEmpty then
        match lastEntry? p.archive slot.packObject with
        | none => .error .keyError
        | some e =>
          if ext.hash e.content = slot.hash then slot.serializer.load e.content
          else .error .slotChecksumError
      else .error (.dependenciesNotSatisfied unsat)

/-- `Pack.remove(slot_key)`: missing key → `SlotKeyError`; drop the slot
(pruning dangling dependencies), rewrite the manifest entry, then overwrite
every no-longer-referenced live payload entry with a zero-length entry. -/
def Pack.remove {α : Type} (p : PackState α) (key : String) :
    Except PyError Unit × PackState α :=
  if Pack.hasSlot p key then
    match p.manifest.removeSlot key with
    | .error e => (.error e, p)
    | .ok m' =>
      let archive1 := writeManifestEntry p.archive m'
      let referenced := m'.slots.map (fun s => s.2.packObject)
      let dangling := (liveNames archive1).filter (fun n => n ∉ referenced)
      (.ok (), ⟨archive1 ++ dangling.map (fun n => ⟨n, []⟩), m'⟩)
  else (.error .slotKeyError, p)

/-- One entry of the manifest's `dependencies` object
(`PackManifest._dependencies_from_dict` loop body): a non-object entry has
no `.get` and raises `AttributeError`; an unhashable `type` value (a JSON
array or object) makes `get_dependency_by_type`'s `in`-test raise
`TypeError`, which only `UnknownContextDependencyType` being caught lets
escape; an unregistered tag (including a hashable non-string value, never
a registry key), a failing reconstruction, and a reconstructed id
differing from the declared one are all surfaced as `WrongFormat`. -/
def depEntryFromDict (depReg : DepRegistry) (ext : ExternalEnv)
    (depId : String) (depData : JValue) : Except PyError ContextDep :=
  match depData with
  | .obj fields =>
    match lookupAL fields "type" with
    | some (.arr _) => .error .typeError
    | some (.obj _) => .error .typeError
    | some (.str t) =>
      match lookupAL depReg t with
      | none => .error .wrongFormat
      | some ctor =>
        match ctor ext fields with
        | .error _ => .error .wrongFormat
        | .ok dep =>
          if dep.depId = depId then .ok dep else .error .wrongFormat
    | _ => .error .wrongFormat
  | _ => .error .attributeError

/-- `PackManifest._dependencies_from_dict` over the entries of the
`dependencies` object, in document order. -/
def depsFromDict (depReg : DepRegistry) (ext : ExternalEnv) :
    List (String × JValue) → Except PyError (List (String × ContextDep))
  | [] => .ok []
  | (depId, depData) :: rest =>
    match depEntryFromDict depReg ext depId depData with
    | .error e => .error e
    | .ok dep =>
      match depsFromDict depReg ext rest with
      | .error e => .error e
      | .ok tail => .ok ((depId, dep) :: tail)

/-- The `dependencies` field of one slot object: `set(data.get(...))` of
the declared id list, deduplicated, all required to exist in the
manifest's dependency map (`WrongFormat` otherwise). -/
def slotDepIdsFromDict (fields : List (String × JValue)) :
    Except PyError (List String) :=
  match lookupAL fields "dependencies" with
  | none => .ok []
  | some (.arr xs) =>
    match xs.mapM (fun v => match v with | .str s => some s | _ => none) with
    | some ids => .ok ids.dedup
    | none => .error .wrongFormat
  | some _ => .error .typeError

/-- `PackManifestSlot.from_dict`: mandatory `serialized_sha256_hash` and
`serializer` fields (`WrongFormat` when missing), dependency ids resolved
against the manifest dependencies (`WrongFormat` on an unknown id), and the
serializer reconstructed from the registry by tag: `UnknownSerializer` for
an unregistered tag (also for a hashable non-string value, never a registry
key), while an unhashable value (a JSON array or object) makes
`get_serializer_by_type`'s `in`-test raise `TypeError`. -/
def slotFromDict {α : Type} (reg : List (Serializer α)) (slotKey : String)
    (data : JValue) (mdeps : List (String × ContextDep)) :
    Except PyError (Slot α) :=
  match data with
  | .obj fields =>
    match lookupAL fields "serialized_sha256_hash" with
    | none => .error .wrongFormat
    | some hv =>
      match lookupAL fields "serializer" with
      | none => .error .wrongFormat
      | some sv =>
        match slotDepIdsFromDict fields with
        | .error e => .error e
        | .ok ids =>
          if ids.all (fun i => (lookupAL mdeps i).isSome) then
            match (match sv with
                   | .str t => getSerializerByType reg t
                   | .arr _ => .error .typeError
                   | .obj _ => .error .typeError
                   | _ => .error .unknownSerializer) with
            | .error e => .error e
            | .ok ser =>
              .ok ⟨slotKey, ser, pyStr hv,
                   ids.filterMap (fun i => (lookupAL mdeps i).map (fun d => (i, d)))⟩
          else .error .wrongFormat
  | _ => .error .typeError

/-- `PackManifest._slots_from_dict` over the entries of the `slots`
object, in document order. -/
def slotsFromDict {α : Type} (reg : List (Serializer α))
    (mdeps : List (String × ContextDep)) :
    List (String × JValue) → Except PyError (List (String × Slot α))
  | [] => .ok []
  | (slotKey, slotData) :: rest =>
    match slotFromDict reg slotKey slotData mdeps with
    | .error e => .error e
    | .ok slot =>
      match slotsFromDict reg mdeps rest with
      | .error e => .error e
      | .ok tail => .ok ((slotKey, slot) :: tail)

/-- The `dependencies` top-level field: absent defaults to the empty
object; a non-object value is `WrongFormat`. -/
def depsField (d : List (String × JValue)) :
    Except PyError (List (String × JValue)) :=
  match lookupAL d "dependencies" with
  | none => .ok []
  | some (.obj fs) => .ok fs
  | some _ => .error .wrongFormat

/-- The `slots` top-level field, analogous. -/
def slotsField (d : List (String × JValue)) :
    Except PyError (List (String × JValue)) :=
  match lookupAL d "slots" with
  | none => .ok []
  | some (.obj fs) => .ok fs
  | some _ => .error .wrongFormat

/-- `PackManifest.from_dict`: version must equal 2 (`WrongFormat`
otherwise), then dependencies, then slots; the resulting manifest holds
exactly the declared slots and dependencies (dict construction order). -/
def Manifest.fromDict {α : Type} (reg : List (Serializer α))
    (depReg : DepRegistry) (ext : ExternalEnv) (d : List (String × JValue)) :
    Except PyError (Manifest α) :=
  match lookupAL d "version" with
  | some (.num 2) =>
    match depsField d with
    | .error e => .error e
    | .ok dfs =>
      match depsFromDict depReg ext dfs with
      | .error e => .error e
      | .ok deps =>
        match slotsField d with
        | .error e => .error e
        | .ok sfs =>
          match slotsFromDict reg deps sfs with
          | .error e => .error e
          | .ok slots => .ok ⟨mkDict slots, mkDict deps⟩
  | _ => .error .wrongFormat

/-- Opening a pack over an archive whose manifest entry parses to `d` and
then loading `key` from it (`Pack.__init__` with an existing manifest,
followed by `Pack.load`). -/
def openAndLoad {α : Type} (ext : ExternalEnv) (reg : List (Serializer α))
    (depReg : DepRegistry) (archive : List ZEntry)
    (d : List (String × JValue)) (key : String) : Except PyError α :=
  match Manifest.fromDict reg depReg ext d with
  | .error e => .error e
  | .ok m => Pack.load ext ⟨archive, m⟩ key

/-- The attributes defined on `ml_utils.io.pack.Pack` (its class body):
neither `dump_to_slot` nor `load_from_slot` is among them, and `load_slot`
is a `NotImplementedError` stub. -/
def mlUtilsPackMethods : List String :=
  ["_load_or_create_manifest", "_update_manifest", "close", "slots_info",
   "has_slot", "dump_slot", "load_slot", "remove_slot"]

/-- The façade `dump(model, fp, slot_key)` of `ml_utils/io/compat.py`:
a missing slot key defaults to `"_default"`; the call then invokes
`mlio_pack.dump_to_slot(slot_key, model)`, and since the `ml_utils` Pack
class defines no such attribute the lookup raises `AttributeError` before
anything is stored. Result: (slot key used, call outcome). -/
def compatDump {α : Type} (model : α) (slotKey : Option String) :
    String × Except PyError Unit :=
  (slotKey.getD "_default",
   if hm : "dump_to_slot" ∈ mlUtilsPackMethods then
     absurd hm (by decide)
   else .error .attributeError)

/-- The façade `load(fp, slot_key)` of `ml_utils/io/compat.py`:
a missing slot key defaults to `"default"`; the call then invokes
`mlio_pack.load_from_slot(slot_key)`, again a missing attribute, so it
raises `AttributeError` and never returns an object. -/
def compatLoad (α : Type) (slotKey : Option String) :
    String × Except PyError α :=
  (slotKey.getD "default",
   if hm : "load_from_slot" ∈ mlUtilsPackMethods then
     absurd hm (by decide)
   else .error .attributeError)

/-! ### Helper lemmas about the embedding -/

theorem lookupAL_isSome_iff {β : Type _} (l : List (String × β)) (k : String) :
    (lookupAL l k).isSome ↔ k ∈ l.map Prod.fst := by
  unfold lookupAL
  rcases hf : l.find? (fun p => p.1 = k) with _ | p
  · rw [hf, Option.map_none']
    constructor
    · intro h; exact absurd h Bool.false_ne_true
    · intro hmem
      exfalso
      obtain ⟨q, hq, he⟩ := List.mem_map.mp hmem
      have := List.find?_eq_none.mp hf q hq
      simp [he] at this
  · rw [hf, Option.map_some']
    constructor
    · intro _
      have hm := List.mem_of_find?_eq_some hf
      have hp := List.find?_some hf
      exact List.mem_map.mpr ⟨p, hm, by simpa using hp⟩
    · intro _; rfl

theorem lookupAL_append {β : Type _} (l1 l2 : List (String × β)) (k : String) :
    lookupAL (l1 ++ l2) k = (lookupAL l1 k).or (lookupAL l2 k) := by
  unfold lookupAL
  rw [List.find?_append]
  rcases hf : l1.find? (fun p => p.1 = k) with _ | v
  · rw [hf, Option.none_or, Option.map_none', Option.none_or]
  · rw [hf, Option.or_some, Option.map_some', Option.or_some]

theorem lookupAL_append_right {β : Type _} (l : List (String × β)) (k : String)
    (v : β) (h : lookupAL l k = none) : lookupAL (l ++ [(k, v)]) k = some v := by
  rw [lookupAL_append, h]
  simp [lookupAL]

theorem lookupAL_append_left {β : Type _} (l1 l2 : List (String × β)) (k : String)
    (h : (lookupAL l1 k).isSome) : lookupAL (l1 ++ l2) k = lookupAL l1 k := by
  rw [lookupAL_append]
  rcases hv : lookupAL l1 k with _ | v
  · rw [hv] at h; simp at h
  · simp [Option.or]

theorem extendDeps_eq_append (base ds : List (String × ContextDep)) :
    ∃ rest, extendDeps base ds = base ++ rest ∧ ∀ x ∈ rest, x ∈ ds := by
  induction ds generalizing base with
  | nil => exact ⟨[], by simp [extendDeps]⟩
  | cons p ds ih =>
    show ∃ rest,
      extendDeps (if (lookupAL base p.1).isSome then base else base ++ [p]) ds
        = base ++ rest ∧ ∀ x ∈ rest, x ∈ p :: ds
    by_cases hp : (lookupAL base p.1).isSome
    · obtain ⟨rest, hr, hsub⟩ := ih base
      exact ⟨rest, by simp [hp, hr], fun x hx => List.mem_cons_of_mem _ (hsub x hx)⟩
    · obtain ⟨rest, hr, hsub⟩ := ih (base ++ [p])
      refine ⟨p :: rest, by simp [hp, hr], ?_⟩
      intro x hx
      rcases List.mem_cons.mp hx with h | h
      · exact h ▸ List.mem_cons_self _ _
      · exact List.mem_cons_of_mem _ (hsub x h)

theorem keys_extendDeps (base ds : List (String × ContextDep))
    (p : String × ContextDep) (hp : p ∈ ds) :
    p.1 ∈ (extendDeps base ds).map Prod.fst := by
  induction ds generalizing base with
  | nil => cases hp
  | cons q ds ih =>
    show p.1 ∈ (extendDeps (if (lookupAL base q.1).isSome then base else base ++ [q]) ds).map Prod.fst
    have hbase : ∀ b : List (String × ContextDep), p.1 ∈ b.map Prod.fst →
        p.1 ∈ (extendDeps b ds).map Prod.fst := by
      intro b hb
      obtain ⟨rest, hr, _⟩ := extendDeps_eq_append b ds
      rw [hr, List.map_append]
      exact List.mem_append_left _ hb
    rcases List.mem_cons.mp hp with h | h
    · subst h
      by_cases hq : (lookupAL base p.1).isSome
      · simpa [hq] using hbase base ((lookupAL_isSome_iff base p.1).mp hq)
      · have : p.1 ∈ (base ++ [p]).map Prod.fst := by simp
        simpa [hq] using hbase (base ++ [p]) this
    · by_cases hq : (lookupAL base q.1).isSome
      · simpa [hq] using ih base h
      · simpa [hq] using ih (base ++ [q]) h

theorem lookupAL_extendDeps_of_isSome (base ds : List (String × ContextDep))
    (k : String) (h : (lookupAL base k).isSome) :
    lookupAL (extendDeps base ds) k = lookupAL base k := by
  obtain ⟨rest, hr, _⟩ := extendDeps_eq_append base ds
  rw [hr]
  exact lookupAL_append_left base rest k h

theorem lookupAL_extendDeps_of_none (base ds : List (String × ContextDep))
    (k : String) (h : lookupAL base k = none) :
    lookupAL (extendDeps base ds) k = lookupAL ds k := by
  induction ds generalizing base with
  | nil => simpa [extendDeps]
  | cons q ds ih =>
    show lookupAL (extendDeps (if (lookupAL base q.1).isSome then base else base ++ [q]) ds) k
      = lookupAL (q :: ds) k
    by_cases hqk : q.1 = k
    · subst hqk
      have hq : ¬ (lookupAL base q.1).isSome := by simp [h]
      have hsome : (lookupAL (base ++ [q]) q.1).isSome := by
        rw [lookupAL_append_right base q.1 q.2 h]; simp
      rw [if_neg hq,
        lookupAL_extendDeps_of_isSome (base ++ [q]) ds q.1 hsome,
        lookupAL_append_right base q.1 q.2 h]
      simp [lookupAL]
    · have hk2 : ∀ b : List (String × ContextDep), lookupAL b k = none →
          lookupAL (extendDeps b ds) k = lookupAL ds k := fun b hb => ih b hb
      have hcons : lookupAL (q :: ds) k = lookupAL ds k := by
        simp [lookupAL, List.find?_cons_of_neg, hqk]
      by_cases hq : (lookupAL base q.1).isSome
      · rw [if_pos hq, hk2 base h, hcons]
      · have hnone : lookupAL (base ++ [q]) k = none := by
          rw [lookupAL_append, h]
          simp [lookupAL, hqk]
        rw [if_neg hq, hk2 (base ++ [q]) hnone, hcons]

theorem insertAL_mem {β : Type _} (l : List (String × β)) (k : String) (v : β)
    (x : String × β) (hx : x ∈ insertAL l k v) : x ∈ l ∨ x = (k, v) := by
  unfold insertAL at hx
  split at hx
  · obtain ⟨p, hp, he⟩ := List.mem_map.mp hx
    by_cases hpk : p.1 = k
    · right; rw [← he, if_pos hpk]
    · left; rw [← he, if_neg hpk]; exact hp
  · rcases List.mem_append.mp hx with h | h
    · exact Or.inl h
    · right; simpa using h

theorem foldl_insertAL_mem {β : Type _} :
    ∀ (ds acc : List (String × β)),
      ∀ x ∈ ds.foldl (fun a p => insertAL a p.1 p.2) acc, x ∈ acc ∨ x ∈ ds := by
  intro ds
  induction ds with
  | nil => intro acc x hx; exact Or.inl hx
  | cons q ds ih =>
    intro acc x hx
    rcases ih (insertAL acc q.1 q.2) x hx with h | h
    · rcases insertAL_mem acc q.1 q.2 x h with h2 | h2
      · exact Or.inl h2
      · exact Or.inr (by simp [h2])
    · exact Or.inr (List.mem_cons_of_mem _ h)

theorem mkDict_subset {β : Type _} (l : List (String × β)) :
    ∀ x ∈ mkDict l, x ∈ l := by
  intro x hx
  rcases foldl_insertAL_mem l [] x hx with h | h
  · cases h
  · exact h

theorem findUnsatisfied_all_ok (ext : ExternalEnv)
    (deps : List (String × ContextDep))
    (h : ∀ d ∈ deps, d.2.satisfied ext = .ok true) :
    findUnsatisfiedDependencies ext deps = .ok [] := by
  induction deps with
  | nil => rfl
  | cons d deps ih =>
    have hd := h d (List.mem_cons_self _ _)
    have ht := ih (fun x hx => h x (List.mem_cons_of_mem _ hx))
    simp [findUnsatisfiedDependencies, hd, ht]

theorem findUnsatisfied_first_import (ext : ExternalEnv)
    (deps : List (String × ContextDep))
    (hall : ∀ d ∈ deps,
      d.2.satisfied ext = .ok true ∨ d.2.satisfied ext = .error .importError)
    (hex : ∃ d ∈ deps, d.2.satisfied ext = .error .importError) :
    findUnsatisfiedDependencies ext deps = .error .importError := by
  induction deps with
  | nil => simp at hex
  | cons d deps ih =>
    rcases hall d (List.mem_cons_self _ _) with hd | hd
    · have hex2 : ∃ x ∈ deps, x.2.satisfied ext = .error .importError := by
        obtain ⟨x, hx, hxe⟩ := hex
        rcases List.mem_cons.mp hx with h | h
        · rw [h, hd] at hxe; cases hxe
        · exact ⟨x, h, hxe⟩
      have ht := ih (fun x hx => hall x (List.mem_cons_of_mem _ hx)) hex2
      simp [findUnsatisfiedDependencies, hd, ht]
    · simp [findUnsatisfiedDependencies, hd]

theorem lastEntry?_append (a b : List ZEntry) (n : String) :
    lastEntry? (a ++ b) n = (lastEntry? b n).or (lastEntry? a n) := by
  unfold lastEntry?
  rw [List.filter_append]
  rcases h : b.filter (fun e => e.name = n) with _ | ⟨x, xs⟩
  · rw [h, List.append_nil, List.getLast?_nil, Option.none_or]
  · rw [h, List.getLast?_append_of_ne_nil _ (List.cons_ne_nil x xs)]
    have hs : ((x :: xs).getLast?).isSome :=
      List.getLast?_isSome.mpr (List.cons_ne_nil x xs)
    obtain ⟨e, he⟩ := Option.isSome_iff_exists.mp hs
    rw [he, Option.or_some]

theorem lastEntry?_snoc (a : List ZEntry) (e : ZEntry) (n : String) :
    lastEntry? (a ++ [e]) n = if e.name = n then some e else lastEntry? a n := by
  rw [lastEntry?_append]
  by_cases h : e.name = n
  · rw [if_pos h]
    show ((List.filter (fun x => x.name = n) [e]).getLast?).or _ = some e
    simp [h]
  · rw [if_neg h]
    show ((List.filter (fun x => x.name = n) [e]).getLast?).or _ = lastEntry? a n
    simp [h]

theorem isLive_snoc_ne (a : List ZEntry) (e : ZEntry) (n : String)
    (h : e.name ≠ n) : isLive (a ++ [e]) n = isLive a n := by
  unfold isLive
  rw [lastEntry?_snoc, if_neg h]

theorem slotName_ne_manifestName (h : String) : h ++ ".slot" ≠ manifestName := by
  intro he
  have hd : (h ++ ".slot").data = manifestName.data := congrArg String.data he
  rw [String.data_append] at hd
  have h5 : (".slot".data) ≠ [] := by decide
  have hl : (h.data ++ ".slot".data).getLast? = (".slot".data).getLast? :=
    List.getLast?_append_of_ne_nil _ h5
  rw [hd] at hl
  revert hl
  decide

theorem isLive_writeManifest {α : Type} (a : List ZEntry) (m : Manifest α)
    (n : String) : isLive (writeManifestEntry a m) n = isLive a n := by
  by_cases h : n = manifestName
  · subst h; simp [isLive]
  · exact isLive_snoc_ne a _ n (fun he => h he.symm)

theorem lastEntry?_writeManifest {α : Type} (a : List ZEntry) (m : Manifest α)
    (h : String) :
    lastEntry? (writeManifestEntry a m) (h ++ ".slot") = lastEntry? a (h ++ ".slot") := by
  unfold writeManifestEntry
  rw [lastEntry?_snoc, if_neg (Ne.symm (slotName_ne_manifestName h))]

theorem mem_liveNames (a : List ZEntry) (n : String) :
    n ∈ liveNames a ↔ isLive a n = true := by
  unfold liveNames
  constructor
  · intro h; exact (List.mem_filter.mp h).2
  · intro h
    refine List.mem_filter.mpr ⟨?_, h⟩
    unfold isLive at h
    rcases hl : lastEntry? a n with _ | e
    · rw [hl] at h; simp at h
    · have he : e ∈ a.filter (fun x => x.name = n) :=
        List.mem_of_getLast?_eq_some hl
      have hm := List.mem_filter.mp he
      have : n ∈ a.map (fun x => x.name) :=
        List.mem_map.mpr ⟨e, hm.1, by simpa using hm.2⟩
      exact List.mem_dedup.mpr this

/-! ### Concrete instances used by witnesses and counterexamples -/

/-- A demonstration serializer over `Nat` (a stand-in for a registered
codec): accepts everything, encodes a number as a one-byte payload. -/
def natSerializer : Serializer Nat :=
  { tag := "nat"
    canSerialize := fun _ => true
    dump := fun n => .ok [n]
    dumpDeps := fun _ => []
    load := fun b => match b with | [n] => .ok n | _ => .error .valueError
    equiv := Eq }

/-- A serializer that accepts nothing. -/
def serNone : Serializer Nat :=
  { tag := "noneSer"
    canSerialize := fun _ => false
    dump := fun _ => .error .typeError
    dumpDeps := fun _ => []
    load := fun _ => .error .typeError
    equiv := Eq }

/-- A concrete external environment: an injective-on-demo-inputs hash,
equality-based specifier sets, `numpy` 1.0 installed and nothing else,
all ZIP appends succeeding. -/
def demoExt : ExternalEnv :=
  { hash := fun b => "h" ++ String.join (b.map (fun n => toString n ++ "."))
    parseSpecs := fun s => some ⟨fun v => v = s, s⟩
    installed := fun m => if m = "numpy" then some "1.0" else none
    writeOk := fun _ _ => true }

def ghostSpec : SpecSet := ⟨fun v => v = "1.0", "~=1.0"⟩

/-- A module-version dependency on the unimportable module `"ghost"`. -/
def ghostDep : ContextDep := mkModuleVersionDep (.str "ghost") "~=1.0" ghostSpec

def ghostSlot : Slot Nat := ⟨"u", natSerializer, demoExt.hash [5], [(ghostDep.depId, ghostDep)]⟩

/-- A pack holding one slot whose single dependency references `"ghost"`. -/
def ghostPack : PackState Nat :=
  ⟨writeManifestEntry [] (Manifest.empty (α := Nat)) ++ [⟨ghostSlot.packObject, [5]⟩],
   ⟨[("u", ghostSlot)], [(ghostDep.depId, ghostDep)]⟩⟩

/-! ### Claims -/

/-- C8: the codec registry is priority-ordered. `register` inserts the
codec at the high-priority end, so the most recently registered codec is
consulted first; `find_for` iterates in priority order and returns the
first registered codec whose `can_serialize` is true; it raises
`UnknownObjectType` when no registered codec accepts the object. -/
theorem C8_registry_priority_order {α : Type} (reg : List (Serializer α))
    (s t : Serializer α) (obj : α) :
    (s.canSerialize obj = true →
      findSuitableSerializer (registerSerializer reg s) obj = .ok s) ∧
    (findSuitableSerializer reg obj = .ok t →
      t.canSerialize obj = true ∧
      ∃ l1 l2, reg = l1 ++ t :: l2 ∧ ∀ u ∈ l1, u.canSerialize obj = false) ∧
    ((∀ u ∈ reg, u.canSerialize obj = false) →
      findSuitableSerializer reg obj = .error .unknownObjectType) := by
  refine ⟨?_, ?_, ?_⟩
  · intro hs
    unfold findSuitableSerializer registerSerializer
    rw [List.find?_cons_of_pos _ (by simpa using hs)]
  · intro ht
    unfold findSuitableSerializer at ht
    rcases hf : reg.find? (fun u => u.canSerialize obj) with _ | u
    · rw [hf] at ht; cases ht
    · rw [hf] at ht
      cases ht
      obtain ⟨hp, l1, l2, hsplit, hprev⟩ := List.find?_eq_some.mp hf
      refine ⟨by simpa using hp, l1, l2, hsplit, ?_⟩
      intro v hv
      have := hprev v hv
      simpa using this
  · intro hnone
    unfold findSuitableSerializer
    rw [List.find?_eq_none.mpr (fun u hu => by simp [hnone u hu])]

/-- C8 witness at a concrete registry: registering an accepting serializer
in front of a rejecting one makes `find_for` return it; the decomposition
of a successful lookup; the `UnknownObjectType` case. -/
theorem C8_registry_priority_order_witness :
    (findSuitableSerializer (registerSerializer [serNone] natSerializer) 3
      = .ok natSerializer) ∧
    (natSerializer.canSerialize 3 = true ∧
      ∃ l1 l2, [serNone, natSerializer] = l1 ++ natSerializer :: l2 ∧
        ∀ u ∈ l1, u.canSerialize 3 = false) ∧
    findSuitableSerializer [serNone] 3 = .error .unknownObjectType := by
  refine ⟨(C8_registry_priority_order [serNone] natSerializer natSerializer 3).1 rfl,
    (C8_registry_priority_order [serNone, natSerializer] natSerializer natSerializer 3).2.1 rfl,
    (C8_registry_priority_order [serNone] natSerializer natSerializer 3).2.2 ?_⟩
  intro u hu
  rw [List.mem_singleton.mp hu]
  rfl

/-- C10 (code bug in `ml_utils/io/compat.py`): the façade `dump` defaults
the slot key to `"_default"` while the façade `load` defaults it to
`"default"` — the two no-key calls do not address the same slot, contra
the claim and the spec's canonical `"_default"` — and in any case both
façade bodies invoke methods (`dump_to_slot`, `load_from_slot`) that the
`ml_utils` Pack class does not define, so each no-key façade call raises
`AttributeError`; nothing is ever stored and no object is ever returned. -/
theorem C10_facade_default_key_bug :
    (compatDump 7 none).1 = "_default" ∧
    (compatLoad Nat none).1 = "default" ∧
    "_default" ≠ "default" ∧
    (compatDump 7 none).2 = .error .attributeError ∧
    (compatLoad Nat none).2 = .error .attributeError ∧
    "dump_to_slot" ∉ mlUtilsPackMethods ∧
    "load_from_slot" ∉ mlUtilsPackMethods :=
  ⟨rfl, rfl, by decide, rfl, rfl, by decide, by decide⟩

/-- C7 counterexample: for the unimportable module `"ghost"`, the
module-version dependency's `is_satisfied` raises `ImportError` — it does
not return false — and a load of a slot referencing it surfaces that
`ImportError`, not `DependenciesNotSatisfied`. -/
theorem C7_counterexample :
    ghostDep.satisfied demoExt = .error .importError ∧
    ghostDep.satisfied demoExt ≠ .ok false ∧
    Pack.load demoExt ghostPack "u" = .error .importError ∧
    Pack.load demoExt ghostPack "u"
      ≠ .error (.dependenciesNotSatisfied [ghostDep.depId]) := by
  refine ⟨rfl, ?_, rfl, ?_⟩
  · intro h
    exact Except.noConfusion h
  · intro h
    have h2 : (PyError.importError) = .dependenciesNotSatisfied [ghostDep.depId] := by
      have h3 : Except.error (ε := PyError) (α := Nat) .importError
          = .error (.dependenciesNotSatisfied [ghostDep.depId]) := h
      exact Except.error.inj h3
    cases h2

/-- C7 (amended): for every module name that cannot be imported, the
module-version dependency never counts as satisfied — `is_satisfied`
raises the import failure (`ImportError`) rather than returning a result,
and a load of a slot whose dependencies each either hold or raise that
failure to import fails with `ImportError` (not `DependenciesNotSatisfied`);
it never reports the dependency satisfied. -/
theorem C7_import_failure_never_satisfied {α : Type} (ext : ExternalEnv)
    (m : String) (specs : SpecSet) (hm : ext.installed m = none)
    (p : PackState α) (key : String) (slot : Slot α)
    (hs : lookupAL p.manifest.slots key = some slot)
    (hall : ∀ d ∈ slot.deps,
      d.2.satisfied ext = .ok true ∨ d.2.satisfied ext = .error .importError)
    (hex : ∃ d ∈ slot.deps, d.2.satisfied ext = .error .importError) :
    moduleVersionIsSatisfied m specs ext = .error .importError ∧
    (∀ b, moduleVersionIsSatisfied m specs ext ≠ .ok b) ∧
    Pack.load ext p key = .error .importError := by
  have h1 : moduleVersionIsSatisfied m specs ext = .error .importError := by
    unfold moduleVersionIsSatisfied getInstalledModuleVersion
    rw [hm]
  refine ⟨h1, ?_, ?_⟩
  · intro b hb
    rw [h1] at hb
    cases hb
  · have hu := findUnsatisfied_first_import ext slot.deps hall hex
    unfold Pack.load
    rw [hs]
    simp only [hu]

/-- C7 witness: the amended statement applied at the `"ghost"` pack. -/
theorem C7_import_failure_never_satisfied_witness :
    demoExt.installed "ghost" = none ∧
    Pack.load demoExt ghostPack "u" = .error .importError := by
  refine ⟨rfl, (C7_import_failure_never_satisfied demoExt "ghost" ghostSpec rfl
    ghostPack "u" ghostSlot rfl ?_ ?_).2.2⟩
  · intro d hd
    rw [List.mem_singleton.mp hd]
    exact Or.inr rfl
  · exact ⟨(ghostDep.depId, ghostDep), List.mem_singleton.mpr rfl, rfl⟩

/-- A module-version dependency on `numpy` that the demo environment does
not satisfy (installed 1.0, required 2.0): `is_satisfied` returns false. -/
def unsatSpec : SpecSet := ⟨fun v => v = "2.0", "~=2.0"⟩

def unsatDep : ContextDep := mkModuleVersionDep (.str "numpy") "~=2.0" unsatSpec

def unsatSlot : Slot Nat := ⟨"s", natSerializer, demoExt.hash [5], [(unsatDep.depId, unsatDep)]⟩

def unsatPack : PackState Nat :=
  ⟨writeManifestEntry [] (Manifest.empty (α := Nat)) ++ [⟨unsatSlot.packObject, [5]⟩],
   ⟨[("s", unsatSlot)], [(unsatDep.depId, unsatDep)]⟩⟩

/-- A pack whose stored hash does not match its payload bytes. -/
def corruptSlot : Slot Nat := ⟨"c", natSerializer, "deadbeef", []⟩

def corruptPack : PackState Nat :=
  ⟨writeManifestEntry [] (Manifest.empty (α := Nat)) ++ [⟨corruptSlot.packObject, [5]⟩],
   ⟨[("c", corruptSlot)], []⟩⟩

/-- A well-formed single-slot pack with no dependencies. -/
def goodSlot : Slot Nat := ⟨"g", natSerializer, demoExt.hash [5], []⟩

def goodPack : PackState Nat :=
  ⟨writeManifestEntry [] (Manifest.empty (α := Nat)) ++ [⟨goodSlot.packObject, [5]⟩],
   ⟨[("g", goodSlot)], []⟩⟩

/-- C2: the order of `Pack.load`'s checks. A missing key raises
`SlotKeyError`; otherwise an unsatisfied dependency set raises
`DependenciesNotSatisfied` with the offending ids — with no condition on
the archive, i.e. before the payload is opened; otherwise a hash mismatch
of the (last) payload entry raises `SlotChecksumError` — independently of
the decoder; otherwise the result is the decode of the re-opened payload
entry's bytes. -/
theorem C2_load_check_order {α : Type} (ext : ExternalEnv) (p : PackState α)
    (key : String) :
    (lookupAL p.manifest.slots key = none →
      Pack.load ext p key = .error .slotKeyError) ∧
    (∀ slot ids, lookupAL p.manifest.slots key = some slot →
      findUnsatisfiedDependencies ext slot.deps = .ok ids → ids ≠ [] →
      Pack.load ext p key = .error (.dependenciesNotSatisfied ids)) ∧
    (∀ slot e, lookupAL p.manifest.slots key = some slot →
      findUnsatisfiedDependencies ext slot.deps = .ok [] →
      lastEntry? p.archive slot.packObject = some e →
      ext.hash e.content ≠ slot.hash →
      Pack.load ext p key = .error .slotChecksumError) ∧
    (∀ slot e, lookupAL p.manifest.slots key = some slot →
      findUnsatisfiedDependencies ext slot.deps = .ok [] →
      lastEntry? p.archive slot.packObject = some e →
      ext.hash e.content = slot.hash →
      Pack.load ext p key = slot.serializer.load e.content) := by
  refine ⟨?_, ?_, ?_, ?_⟩
  · intro h
    unfold Pack.load
    rw [h]
  · intro slot ids hs hu hne
    unfold Pack.load
    rw [hs]
    simp only [hu]
    rcases ids with _ | ⟨a, as⟩
    · exact absurd rfl hne
    · rfl
  · intro slot e hs hu hl hne
    unfold Pack.load
    rw [hs]
    simp only [hu, hl, List.isEmpty_nil, if_true]
    rw [if_neg hne]
  · intro slot e hs hu hl heq
    unfold Pack.load
    rw [hs]
    simp only [hu, hl, List.isEmpty_nil, if_true]
    rw [if_pos heq]

/-- C2 witness: each branch of the check order exercised on a concrete
pack: missing key, unsatisfied `numpy` requirement, corrupted payload,
and a clean decode. -/
theorem C2_load_check_order_witness :
    Pack.load demoExt (PackState.fresh Nat) "nope" = .error .slotKeyError ∧
    Pack.load demoExt unsatPack "s" = .error (.dependenciesNotSatisfied [unsatDep.depId]) ∧
    Pack.load demoExt corruptPack "c" = .error .slotChecksumError ∧
    Pack.load demoExt goodPack "g" = goodSlot.serializer.load [5] := by
  refine ⟨(C2_load_check_order demoExt (PackState.fresh Nat) "nope").1 rfl,
    (C2_load_check_order demoExt unsatPack "s").2.1 unsatSlot [unsatDep.depId] rfl rfl
      (by intro h; cases h),
    (C2_load_check_order demoExt corruptPack "c").2.2.1 corruptSlot ⟨corruptSlot.packObject, [5]⟩
      rfl rfl rfl (by decide),
    (C2_load_check_order demoExt goodPack "g").2.2.2 goodSlot ⟨goodSlot.packObject, [5]⟩
      rfl rfl rfl rfl⟩

/-- C4: `Pack.dump` is atomic on failure. A duplicate key fails with
`SlotKeyError` and leaves the state untouched; serializer selection can
only fail with `UnknownObjectType`, which also leaves the state untouched;
on *every* failure (including an encoding error or a failed payload
append) the in-memory manifest is unchanged; contrapositively, the
manifest is mutated only by a fully successful dump. -/
theorem C4_dump_atomic_on_failure {α : Type} (ext : ExternalEnv)
    (reg : List (Serializer α)) (p : PackState α) (key : String) (obj : α) :
    (Pack.hasSlot p key = true →
      Pack.dump ext reg p key obj = (.error .slotKeyError, p)) ∧
    (∀ e, findSuitableSerializer reg obj = .error e → e = .unknownObjectType) ∧
    (Pack.hasSlot p key = false →
      findSuitableSerializer reg obj = .error .unknownObjectType →
      Pack.dump ext reg p key obj = (.error .unknownObjectType, p)) ∧
    (∀ e, (Pack.dump ext reg p key obj).1 = .error e →
      (Pack.dump ext reg p key obj).2.manifest = p.manifest) ∧
    ((Pack.dump ext reg p key obj).2.manifest ≠ p.manifest →
      (Pack.dump ext reg p key obj).1 = .ok ()) := by
  have hman : ∀ e, (Pack.dump ext reg p key obj).1 = .error e →
      (Pack.dump ext reg p key obj).2.manifest = p.manifest := by
    intro e
    unfold Pack.dump
    split
    · intro _; rfl
    · split
      · intro _; rfl
      · split
        · intro _; rfl
        · dsimp only
          split
          · split
            · intro _; rfl
            · intro h; cases h
          · split
            · split
              · intro _; rfl
              · intro h; cases h
            · intro _; rfl
  refine ⟨?_, ?_, ?_, hman, ?_⟩
  · intro h
    unfold Pack.dump
    rw [if_pos h]
  · intro e he
    unfold findSuitableSerializer at he
    rcases hf : reg.find? (fun u => u.canSerialize obj) with _ | u
    · rw [hf] at he
      exact (Except.error.inj he).symm
    · rw [hf] at he; cases he
  · intro h1 h2
    unfold Pack.dump
    rw [h1]
    simp only [h2]
    rfl
  · intro hne
    rcases hr : (Pack.dump ext reg p key obj).1 with e | u
    · exact absurd (hman e hr) hne
    · cases u; rfl

/-- C4 witness: duplicate-key and no-codec failures at concrete inputs,
both leaving the pack state untouched. -/
theorem C4_dump_atomic_on_failure_witness :
    Pack.dump demoExt [natSerializer] goodPack "g" 9 = (.error .slotKeyError, goodPack) ∧
    Pack.dump demoExt [] goodPack "x" 9 = (.error .unknownObjectType, goodPack) ∧
    (Pack.dump demoExt [] goodPack "x" 9).2.manifest = goodPack.manifest := by
  refine ⟨(C4_dump_atomic_on_failure demoExt [natSerializer] goodPack "g" 9).1 rfl,
    (C4_dump_atomic_on_failure demoExt [] goodPack "x" 9).2.2.1 rfl rfl,
    (C4_dump_atomic_on_failure demoExt [] goodPack "x" 9).2.2.2.1 .unknownObjectType rfl⟩

/-- The two dependency invariants of the manifest: (I1) every dependency
id referenced by a slot is a key of the dependency map; (I2) every key of
the dependency map is referenced by at least one slot. -/
def ManifestInv {α : Type} (m : Manifest α) : Prop :=
  (∀ s ∈ m.slots, ∀ d ∈ s.2.deps, d.1 ∈ m.deps.map Prod.fst) ∧
  (∀ d ∈ m.deps, ∃ s ∈ m.slots, d.1 ∈ s.2.deps.map Prod.fst)

theorem mem_referencedDepIds {α : Type} (slots : List (String × Slot α))
    (i : String) :
    i ∈ referencedDepIds slots ↔ ∃ s ∈ slots, i ∈ s.2.deps.map (fun d => d.1) := by
  have hgen : ∀ acc : List String,
      i ∈ slots.foldl (fun acc p => acc ++ p.2.deps.map (fun d => d.1)) acc ↔
        i ∈ acc ∨ ∃ s ∈ slots, i ∈ s.2.deps.map (fun d => d.1) := by
    induction slots with
    | nil => intro acc; simp
    | cons q slots ih =>
      intro acc
      rw [List.foldl_cons, ih (acc ++ q.2.deps.map (fun d => d.1))]
      constructor
      · rintro (h | h)
        · rcases List.mem_append.mp h with h2 | h2
          · exact Or.inl h2
          · exact Or.inr ⟨q, List.mem_cons_self _ _, h2⟩
        · obtain ⟨s, hs, hi⟩ := h
          exact Or.inr ⟨s, List.mem_cons_of_mem _ hs, hi⟩
      · rintro (h | h)
        · exact Or.inl (List.mem_append_left _ h)
        · obtain ⟨s, hs, hi⟩ := h
          rcases List.mem_cons.mp hs with h2 | h2
          · exact Or.inl (List.mem_append_right _ (h2 ▸ hi))
          · exact Or.inr ⟨s, h2, hi⟩
  have := hgen []
  simpa [referencedDepIds] using this

theorem insertSlot_ok {α : Type} (m : Manifest α) (slot : Slot α)
    (m' : Manifest α) (h : m.insertSlot slot = .ok m') :
    lookupAL m.slots slot.slot_key = none ∧
    m' = ⟨m.slots ++ [(slot.slot_key, slot)], extendDeps m.deps slot.deps⟩ := by
  unfold Manifest.insertSlot at h
  split at h
  · cases h
  · refine ⟨?_, (Except.ok.inj h).symm⟩
    rcases hv : lookupAL m.slots slot.slot_key with _ | v
    · rfl
    · rename_i hne
      rw [hv] at hne
      simp at hne

theorem insertSlot_preserves_inv {α : Type} (m : Manifest α) (slot : Slot α)
    (m' : Manifest α) (h : m.insertSlot slot = .ok m') (hinv : ManifestInv m) :
    ManifestInv m' := by
  obtain ⟨-, hm'⟩ := insertSlot_ok m slot m' h
  subst hm'
  obtain ⟨rest, hext, hrest⟩ := extendDeps_eq_append m.deps slot.deps
  constructor
  · intro s hs d hd
    rcases List.mem_append.mp hs with h2 | h2
    · have := hinv.1 s h2 d hd
      rw [hext, List.map_append]
      exact List.mem_append_left _ this
    · have hseq : s = (slot.slot_key, slot) := by simpa using h2
      subst hseq
      exact keys_extendDeps m.deps slot.deps d hd
  · intro d hd
    rw [hext] at hd
    rcases List.mem_append.mp hd with h2 | h2
    · obtain ⟨s, hs, hi⟩ := hinv.2 d h2
      exact ⟨s, List.mem_append_left _ hs, hi⟩
    · refine ⟨(slot.slot_key, slot), List.mem_append_right _ (by simp), ?_⟩
      exact List.mem_map.mpr ⟨d, hrest d h2, rfl⟩

theorem removeSlot_ok {α : Type} (m : Manifest α) (key : String)
    (m' : Manifest α) (h : m.removeSlot key = .ok m') :
    m' = ⟨eraseAL m.slots key,
          m.deps.filter (fun d => d.1 ∈ referencedDepIds (eraseAL m.slots key))⟩ := by
  unfold Manifest.removeSlot at h
  split at h
  · cases h
  · exact (Except.ok.inj h).symm

theorem removeSlot_preserves_inv {α : Type} (m : Manifest α) (key : String)
    (m' : Manifest α) (h : m.removeSlot key = .ok m') (hinv : ManifestInv m) :
    ManifestInv m' := by
  have hm' := removeSlot_ok m key m' h
  subst hm'
  constructor
  · intro s hs d hd
    have hs0 : s ∈ m.slots := List.mem_of_mem_filter hs
    have hkey := hinv.1 s hs0 d hd
    have href : d.1 ∈ referencedDepIds (eraseAL m.slots key) :=
      (mem_referencedDepIds _ _).mpr ⟨s, hs, List.mem_map.mpr ⟨d, hd, rfl⟩⟩
    obtain ⟨q, hq, hqk⟩ := List.mem_map.mp hkey
    refine List.mem_map.mpr ⟨q, ?_, hqk⟩
    refine List.mem_filter.mpr ⟨hq, ?_⟩
    rw [hqk]
    exact decide_eq_true href
  · intro d hd
    have h2 := List.mem_filter.mp hd
    have href : d.1 ∈ referencedDepIds (eraseAL m.slots key) := of_decide_eq_true h2.2
    obtain ⟨s, hs, hi⟩ := (mem_referencedDepIds _ _).mp href
    exact ⟨s, hs, hi⟩

/-- C5: after every manifest mutation the dependency invariants hold:
`insert_slot` and `remove_slot` preserve (I1) every slot-referenced
dependency id is in the dependency map and (I2) every mapped dependency id
is referenced by some slot; `insert_slot` merges the slot's dependencies
with an existing id winning; `remove_slot` keeps exactly the dependencies
still referenced by a remaining slot; consequently every `Pack.dump` and
`Pack.remove` (successful or not) preserves the invariants. -/
theorem C5_manifest_dependency_invariants {α : Type} (ext : ExternalEnv)
    (reg : List (Serializer α)) :
    (∀ (m : Manifest α) slot m', m.insertSlot slot = .ok m' →
      ManifestInv m → ManifestInv m') ∧
    (∀ (m : Manifest α) slot m' k, m.insertSlot slot = .ok m' →
      ((lookupAL m.deps k).isSome → lookupAL m'.deps k = lookupAL m.deps k) ∧
      (lookupAL m.deps k = none → lookupAL m'.deps k = lookupAL slot.deps k)) ∧
    (∀ (m : Manifest α) key m', m.removeSlot key = .ok m' →
      ManifestInv m → ManifestInv m') ∧
    (∀ (m : Manifest α) key m' d, m.removeSlot key = .ok m' →
      (d ∈ m'.deps ↔ d ∈ m.deps ∧ d.1 ∈ referencedDepIds m'.slots)) ∧
    (∀ (p : PackState α) key obj, ManifestInv p.manifest →
      ManifestInv ((Pack.dump ext reg p key obj).2).manifest) ∧
    (∀ (p : PackState α) key, ManifestInv p.manifest →
      ManifestInv ((Pack.remove p key).2).manifest) := by
  refine ⟨insertSlot_preserves_inv, ?_, removeSlot_preserves_inv, ?_, ?_, ?_⟩
  · intro m slot m' k h
    obtain ⟨-, hm'⟩ := insertSlot_ok m slot m' h
    subst hm'
    exact ⟨lookupAL_extendDeps_of_isSome m.deps slot.deps k,
      lookupAL_extendDeps_of_none m.deps slot.deps k⟩
  · intro m key m' d h
    have hm' := removeSlot_ok m key m' h
    subst hm'
    constructor
    · intro hd
      have h2 := List.mem_filter.mp hd
      exact ⟨h2.1, of_decide_eq_true h2.2⟩
    · intro hd
      exact List.mem_filter.mpr ⟨hd.1, decide_eq_true hd.2⟩
  · intro p key obj hinv
    unfold Pack.dump
    split
    · exact hinv
    · split
      · exact hinv
      · split
        · exact hinv
        · dsimp only
          split
          · split
            · exact hinv
            · rename_i m' heq
              exact insertSlot_preserves_inv _ _ m' heq hinv
          · split
            · split
              · exact hinv
              · rename_i m' heq
                exact insertSlot_preserves_inv _ _ m' heq hinv
            · exact hinv
  · intro p key hinv
    unfold Pack.remove
    split
    · split
      · exact hinv
      · rename_i m' heq
        exact removeSlot_preserves_inv _ _ m' heq hinv
    · exact hinv

/-- C5 witness: inserting a concrete slot into the empty manifest and
removing it again, with the invariants holding at each step. -/
theorem C5_manifest_dependency_invariants_witness :
    ManifestInv (⟨[("u", ghostSlot)], [(ghostDep.depId, ghostDep)]⟩ : Manifest Nat) ∧
    ManifestInv (Manifest.empty (α := Nat)) := by
  have hempty : ManifestInv (Manifest.empty (α := Nat)) := by
    constructor
    · intro s hs
      cases hs
    · intro d hd
      cases hd
  refine ⟨(C5_manifest_dependency_invariants demoExt [natSerializer]).1
    Manifest.empty ghostSlot _ rfl hempty, hempty⟩

theorem isLive_elim (a : List ZEntry) (n : String) (h : isLive a n = true) :
    ∃ e, lastEntry? a n = some e ∧ e.content ≠ [] := by
  unfold isLive at h
  rw [Bool.and_eq_true] at h
  obtain ⟨-, h2⟩ := h
  rcases hl : lastEntry? a n with _ | e
  · rw [hl] at h2; cases h2
  · rw [hl] at h2
    have h3 : (!e.content.isEmpty) = true := h2
    refine ⟨e, rfl, ?_⟩
    intro hc
    rw [hc] at h3
    cases h3

theorem dumpSlot_deps_ok {α : Type} (ext : ExternalEnv) (ser : Serializer α)
    (obj : α) (key : String) (bytes : List Nat)
    (hdeps : ∀ d ∈ ser.dumpDeps obj, d.satisfied ext = .ok true) :
    findUnsatisfiedDependencies ext (dumpSlot ext ser obj key bytes).deps = .ok [] := by
  apply findUnsatisfied_all_ok
  intro d hd
  have hsub := mkDict_subset _ d hd
  obtain ⟨d0, hd0, he⟩ := List.mem_map.mp hsub
  have h2 : d.2 = d0 := by rw [← he]
  rw [h2]
  exact hdeps d0 hd0

/-- The state produced by a successful `Pack.dump`: the payload entry is
appended only when `"{hash}.slot"` is not yet live, the slot is appended to
the manifest with the dependency merge, and the manifest entry is
rewritten. -/
theorem dump_ok_state {α : Type} (ext : ExternalEnv) (reg : List (Serializer α))
    (p : PackState α) (key : String) (obj : α) (ser : Serializer α)
    (bytes : List Nat)
    (hw : ∀ n b, ext.writeOk n b = true)
    (hkey : lookupAL p.manifest.slots key = none)
    (hser : findSuitableSerializer reg obj = .ok ser)
    (hdump : ser.dump obj = .ok bytes) :
    Pack.dump ext reg p key obj =
      (.ok (),
       ⟨writeManifestEntry
          (if isLive p.archive (dumpSlot ext ser obj key bytes).packObject then p.archive
           else p.archive ++ [⟨(dumpSlot ext ser obj key bytes).packObject, bytes⟩])
          ⟨p.manifest.slots ++ [(key, dumpSlot ext ser obj key bytes)],
           extendDeps p.manifest.deps (dumpSlot ext ser obj key bytes).deps⟩,
        ⟨p.manifest.slots ++ [(key, dumpSlot ext ser obj key bytes)],
         extendDeps p.manifest.deps (dumpSlot ext ser obj key bytes).deps⟩⟩) := by
  have hkb : Pack.hasSlot p key = false := by
    unfold Pack.hasSlot
    rw [hkey]
    rfl
  have hins : p.manifest.insertSlot (dumpSlot ext ser obj key bytes) =
      .ok ⟨p.manifest.slots ++ [(key, dumpSlot ext ser obj key bytes)],
           extendDeps p.manifest.deps (dumpSlot ext ser obj key bytes).deps⟩ := by
    unfold Manifest.insertSlot
    have : lookupAL p.manifest.slots (dumpSlot ext ser obj key bytes).slot_key = none := hkey
    rw [this]
    rfl
  unfold Pack.dump
  rw [if_neg (by rw [hkb]; exact Bool.false_ne_true)]
  rw [hser]
  dsimp only
  rw [hdump]
  dsimp only
  by_cases hl : isLive p.archive (dumpSlot ext ser obj key bytes).packObject = true
  · rw [if_pos hl, hins, if_pos hl]
  · rw [if_neg hl, if_neg hl, if_pos (hw _ _), hins]

/-- The result of a `Pack.load` whose four stages all pass. -/
theorem load_decode {α : Type} (ext : ExternalEnv) (p : PackState α)
    (key : String) (slot : Slot α) (e : ZEntry)
    (hs : lookupAL p.manifest.slots key = some slot)
    (hu : findUnsatisfiedDependencies ext slot.deps = .ok [])
    (hl : lastEntry? p.archive slot.packObject = some e)
    (hh : ext.hash e.content = slot.hash) :
    Pack.load ext p key = slot.serializer.load e.content := by
  unfold Pack.load
  rw [hs]
  simp only [hu, hl, List.isEmpty_nil, if_true]
  rw [if_pos hh]

/-- C1: round trip through the write/read protocol. For an object accepted
by a registered codec whose decode inverts its encode under the codec's
equivalence, dumping to a fresh slot key and loading it back returns an
equivalent object — assuming the recorded context dependencies hold, ZIP
appends succeed, and any already-live payload entry under the same hash
holds those very bytes (content addressing). -/
theorem C1_dump_load_roundtrip {α : Type} (ext : ExternalEnv)
    (reg : List (Serializer α)) (p : PackState α) (key : String) (obj : α)
    (ser : Serializer α) (bytes : List Nat) (r : α)
    (hw : ∀ n b, ext.writeOk n b = true)
    (hkey : lookupAL p.manifest.slots key = none)
    (hser : findSuitableSerializer reg obj = .ok ser)
    (hdump : ser.dump obj = .ok bytes)
    (hload : ser.load bytes = .ok r)
    (hequiv : ser.equiv r obj)
    (hdeps : ∀ d ∈ ser.dumpDeps obj, d.satisfied ext = .ok true)
    (hcol : ∀ e, lastEntry? p.archive (ext.hash bytes ++ ".slot") = some e →
      e.content ≠ [] → e.content = bytes) :
    (Pack.dump ext reg p key obj).1 = .ok () ∧
    Pack.load ext (Pack.dump ext reg p key obj).2 key = .ok r ∧
    ser.equiv r obj := by
  have hd := dump_ok_state ext reg p key obj ser bytes hw hkey hser hdump
  have hpo : (dumpSlot ext ser obj key bytes).packObject = ext.hash bytes ++ ".slot" := rfl
  refine ⟨by rw [hd], ?_, hequiv⟩
  rw [hd]
  have hs2 : lookupAL
      (p.manifest.slots ++ [(key, dumpSlot ext ser obj key bytes)]) key
      = some (dumpSlot ext ser obj key bytes) :=
    lookupAL_append_right _ _ _ hkey
  by_cases hl : isLive p.archive (dumpSlot ext ser obj key bytes).packObject = true
  · obtain ⟨e, hle, hne⟩ := isLive_elim _ _ hl
    have hcontent : e.content = bytes := hcol e (by rw [← hpo]; exact hle) hne
    have hlast : lastEntry?
        (writeManifestEntry
          (if isLive p.archive (dumpSlot ext ser obj key bytes).packObject then p.archive
           else p.archive ++ [⟨(dumpSlot ext ser obj key bytes).packObject, bytes⟩])
          ⟨p.manifest.slots ++ [(key, dumpSlot ext ser obj key bytes)],
           extendDeps p.manifest.deps (dumpSlot ext ser obj key bytes).deps⟩)
        (dumpSlot ext ser obj key bytes).packObject = some e := by
      rw [if_pos hl, hpo, lastEntry?_writeManifest]
      exact hle
    rw [load_decode ext _ key (dumpSlot ext ser obj key bytes) e hs2
      (dumpSlot_deps_ok ext ser obj key bytes hdeps) hlast
      (by rw [hcontent]; rfl)]
    rw [hcontent]
    exact hload
  · have hlast : lastEntry?
        (writeManifestEntry
          (if isLive p.archive (dumpSlot ext ser obj key bytes).packObject then p.archive
           else p.archive ++ [⟨(dumpSlot ext ser obj key bytes).packObject, bytes⟩])
          ⟨p.manifest.slots ++ [(key, dumpSlot ext ser obj key bytes)],
           extendDeps p.manifest.deps (dumpSlot ext ser obj key bytes).deps⟩)
        (dumpSlot ext ser obj key bytes).packObject
        = some ⟨(dumpSlot ext ser obj key bytes).packObject, bytes⟩ := by
      rw [if_neg hl, hpo, lastEntry?_writeManifest, lastEntry?_snoc, if_pos rfl]
    rw [load_decode ext _ key (dumpSlot ext ser obj key bytes)
      ⟨(dumpSlot ext ser obj key bytes).packObject, bytes⟩ hs2
      (dumpSlot_deps_ok ext ser obj key bytes hdeps) hlast rfl]
    exact hload

/-- C1 witness: dumping 5 into a fresh pack under key `"k"` and loading it
back yields 5. -/
theorem C1_dump_load_roundtrip_witness :
    (Pack.dump demoExt [natSerializer] (PackState.fresh Nat) "k" 5).1 = .ok () ∧
    Pack.load demoExt (Pack.dump demoExt [natSerializer] (PackState.fresh Nat) "k" 5).2 "k"
      = .ok 5 := by
  have h := C1_dump_load_roundtrip demoExt [natSerializer] (PackState.fresh Nat)
    "k" 5 natSerializer [5] 5 (fun _ _ => rfl) rfl rfl rfl rfl rfl
    (by intro d hd; cases hd)
    (by intro e he; cases he)
  exact ⟨h.1, h.2.1⟩

theorem isLive_snoc_self (a : List ZEntry) (n : String) (c : List Nat) :
    isLive (a ++ [⟨n, c⟩]) n = (decide (n ≠ manifestName) && !c.isEmpty) := by
  unfold isLive
  rw [lastEntry?_snoc, if_pos rfl]

theorem lastEntry?_zeros (names : List String) (n : String) :
    lastEntry? (names.map (fun m => (⟨m, []⟩ : ZEntry))) n =
      if n ∈ names then some ⟨n, []⟩ else none := by
  induction names with
  | nil => simp [lastEntry?]
  | cons m names ih =>
    rw [List.map_cons, show ((⟨m, []⟩ : ZEntry) :: names.map (fun m => (⟨m, []⟩ : ZEntry)))
        = [(⟨m, []⟩ : ZEntry)] ++ names.map (fun m => (⟨m, []⟩ : ZEntry)) from rfl,
      lastEntry?_append, ih]
    by_cases hn : n ∈ names
    · rw [if_pos hn, if_pos (List.mem_cons_of_mem _ hn), Option.or_some]
    · rw [if_neg hn, Option.none_or]
      by_cases hm : m = n
      · subst hm
        rw [if_pos (List.mem_cons_self _ _)]
        simp [lastEntry?]
      · rw [if_neg (by intro h; rcases List.mem_cons.mp h with h2 | h2; exact hm h2.symm; exact hn h2)]
        simp [lastEntry?, hm]

theorem isLive_append_zeros (a : List ZEntry) (names : List String) (n : String) :
    isLive (a ++ names.map (fun m => (⟨m, []⟩ : ZEntry))) n =
      if n ∈ names then false else isLive a n := by
  unfold isLive
  rw [lastEntry?_append, lastEntry?_zeros]
  by_cases hn : n ∈ names
  · rw [if_pos hn, if_pos hn, Option.or_some]
    simp
  · rw [if_neg hn, if_neg hn, Option.none_or]

theorem removeSlot_eq {α : Type} (m : Manifest α) (key : String) (slot : Slot α)
    (hs : lookupAL m.slots key = some slot) :
    m.removeSlot key =
      .ok ⟨eraseAL m.slots key,
           m.deps.filter (fun d => d.1 ∈ referencedDepIds (eraseAL m.slots key))⟩ := by
  unfold Manifest.removeSlot
  rw [if_neg (by rw [hs]; simp)]

theorem remove_ok_state {α : Type} (p : PackState α) (key : String) (slot : Slot α)
    (hs : lookupAL p.manifest.slots key = some slot) :
    Pack.remove p key =
      (.ok (),
       ⟨writeManifestEntry p.archive
           ⟨eraseAL p.manifest.slots key,
            p.manifest.deps.filter
              (fun d => d.1 ∈ referencedDepIds (eraseAL p.manifest.slots key))⟩ ++
         ((liveNames (writeManifestEntry p.archive
             ⟨eraseAL p.manifest.slots key,
              p.manifest.deps.filter
                (fun d => d.1 ∈ referencedDepIds (eraseAL p.manifest.slots key))⟩)).filter
           (fun n => n ∉ (eraseAL p.manifest.slots key).map (fun s => s.2.packObject))).map
           (fun n => (⟨n, []⟩ : ZEntry)),
        ⟨eraseAL p.manifest.slots key,
         p.manifest.deps.filter
           (fun d => d.1 ∈ referencedDepIds (eraseAL p.manifest.slots key))⟩⟩) := by
  unfold Pack.remove
  rw [if_pos (by unfold Pack.hasSlot; rw [hs]; rfl), removeSlot_eq p.manifest key slot hs]

theorem isLive_cleanup_all (a : List ZEntry) (n : String) :
    isLive (a ++ ((liveNames a).filter (fun m => m ∉ ([] : List String))).map
      (fun m => (⟨m, []⟩ : ZEntry))) n = false := by
  rw [isLive_append_zeros]
  by_cases hn : n ∈ (liveNames a).filter (fun m => m ∉ ([] : List String))
  · rw [if_pos hn]
  · rw [if_neg hn]
    cases hb : isLive a n
    · rfl
    · exact absurd (List.mem_filter.mpr ⟨(mem_liveNames a n).mpr hb, by simp⟩) hn

/-- C3 (amended): dedup and prune, for a *non-empty* encoding. Starting
from a pack with no slots and no live payload entries, dumping the same
object under two different keys leaves exactly one live payload entry,
named `"{h}.slot"` for the common hash `h` — the second dump appends only
the manifest entry. Removing the first key keeps that entry live; removing
the second leaves zero live non-manifest entries. -/
theorem C3_dedup_and_prune {α : Type} (ext : ExternalEnv)
    (reg : List (Serializer α)) (p : PackState α) (k1 k2 : String) (obj : α)
    (ser : Serializer α) (bytes : List Nat)
    (hw : ∀ n b, ext.writeOk n b = true)
    (hslots : p.manifest.slots = [])
    (hlive : ∀ n, isLive p.archive n = false)
    (hne : k1 ≠ k2)
    (hser : findSuitableSerializer reg obj = .ok ser)
    (hdump : ser.dump obj = .ok bytes)
    (hbytes : bytes ≠ []) :
    ∃ p1 p2 : PackState α,
      Pack.dump ext reg p k1 obj = (.ok (), p1) ∧
      Pack.dump ext reg p1 k2 obj = (.ok (), p2) ∧
      p2.archive = writeManifestEntry p1.archive p2.manifest ∧
      (∀ n, isLive p2.archive n = true ↔ n = ext.hash bytes ++ ".slot") ∧
      (Pack.remove p2 k1).1 = .ok () ∧
      isLive (Pack.remove p2 k1).2.archive (ext.hash bytes ++ ".slot") = true ∧
      (Pack.remove (Pack.remove p2 k1).2 k2).1 = .ok () ∧
      ∀ n, isLive (Pack.remove (Pack.remove p2 k1).2 k2).2.archive n = false := by
  have hne2 : k2 ≠ k1 := Ne.symm hne
  have hbe : bytes.isEmpty = false := List.isEmpty_eq_false.mpr hbytes
  -- first dump: fresh key, payload not yet live, so the entry is appended
  have hkey1 : lookupAL p.manifest.slots k1 = none := by rw [hslots]; rfl
  have hd1 := dump_ok_state ext reg p k1 obj ser bytes hw hkey1 hser hdump
  rw [if_neg (by rw [hlive]; exact Bool.false_ne_true), hslots, List.nil_append] at hd1
  have hname1 : (dumpSlot ext ser obj k1 bytes).packObject = ext.hash bytes ++ ".slot" := rfl
  have hname2 : (dumpSlot ext ser obj k2 bytes).packObject = ext.hash bytes ++ ".slot" := rfl
  rw [hname1] at hd1
  set M1 : Manifest α := ⟨[(k1, dumpSlot ext ser obj k1 bytes)],
    extendDeps p.manifest.deps (dumpSlot ext ser obj k1 bytes).deps⟩ with hM1
  set A1 : List ZEntry := p.archive ++ [⟨ext.hash bytes ++ ".slot", bytes⟩] with hA1
  -- the payload entry is live below any number of manifest rewrites
  have hliveA1 : ∀ n, isLive A1 n = true ↔ n = ext.hash bytes ++ ".slot" := by
    intro n
    by_cases hn : n = ext.hash bytes ++ ".slot"
    · subst hn
      rw [hA1, isLive_snoc_self, hbe]
      simp [slotName_ne_manifestName (ext.hash bytes)]
    · rw [hA1, isLive_snoc_ne _ _ _ (fun h => hn h.symm), hlive n]
      constructor
      · intro h; exact absurd h Bool.false_ne_true
      · intro h; exact absurd h hn
  -- second dump: fresh key, payload already live, append skipped
  have hkey2 : lookupAL M1.slots k2 = none := by
    rw [hM1]
    simp [lookupAL, hne]
  have hd2 := dump_ok_state ext reg ⟨writeManifestEntry A1 M1, M1⟩ k2 obj ser bytes
    hw hkey2 hser hdump
  have hlive1 : isLive (writeManifestEntry A1 M1) ((dumpSlot ext ser obj k2 bytes).packObject)
      = true := by
    rw [hname2, isLive_writeManifest]
    exact (hliveA1 _).mpr rfl
  rw [if_pos hlive1] at hd2
  dsimp only at hd2
  set M2 : Manifest α := ⟨M1.slots ++ [(k2, dumpSlot ext ser obj k2 bytes)],
    extendDeps M1.deps (dumpSlot ext ser obj k2 bytes).deps⟩ with hM2
  -- liveness of the archive after both dumps
  have hliveP2 : ∀ n, isLive (writeManifestEntry (writeManifestEntry A1 M1) M2) n = true
      ↔ n = ext.hash bytes ++ ".slot" := by
    intro n
    rw [isLive_writeManifest, isLive_writeManifest]
    exact hliveA1 n
  -- first remove
  have hs1 : lookupAL M2.slots k1 = some (dumpSlot ext ser obj k1 bytes) := by
    rw [hM2, hM1]
    simp [lookupAL]
  have hr1 := remove_ok_state ⟨writeManifestEntry (writeManifestEntry A1 M1) M2, M2⟩
    k1 (dumpSlot ext ser obj k1 bytes) hs1
  have herase1 : eraseAL M2.slots k1 = [(k2, dumpSlot ext ser obj k2 bytes)] := by
    rw [hM2, hM1]
    simp [eraseAL, hne2]
  rw [herase1] at hr1
  set M3 : Manifest α := ⟨[(k2, dumpSlot ext ser obj k2 bytes)],
    M2.deps.filter (fun d => d.1 ∈ referencedDepIds [(k2, dumpSlot ext ser obj k2 bytes)])⟩
    with hM3
  have hr1' : Pack.remove (⟨writeManifestEntry (writeManifestEntry A1 M1) M2, M2⟩ : PackState α) k1
      = (.ok (), ⟨writeManifestEntry (writeManifestEntry (writeManifestEntry A1 M1) M2) M3, M3⟩) := by
    rw [hr1]
    have hdang : (liveNames (writeManifestEntry (writeManifestEntry (writeManifestEntry A1 M1) M2) M3)).filter
        (fun n => n ∉ ([(k2, dumpSlot ext ser obj k2 bytes)].map (fun s => s.2.packObject))) = [] := by
      rw [List.filter_eq_nil_iff]
      intro a ha
      have hl2 := (mem_liveNames _ a).mp ha
      rw [isLive_writeManifest] at hl2
      have haname : a = ext.hash bytes ++ ".slot" := (hliveP2 a).mp hl2
      simp only [List.map_cons, List.map_nil, hname2, haname]
      simp
    rw [hdang, List.map_nil, List.append_nil]
  have hliveP3 : ∀ n,
      isLive (writeManifestEntry (writeManifestEntry (writeManifestEntry A1 M1) M2) M3) n = true
        ↔ n = ext.hash bytes ++ ".slot" := by
    intro n
    rw [isLive_writeManifest]
    exact hliveP2 n
  -- second remove
  have hs2 : lookupAL M3.slots k2 = some (dumpSlot ext ser obj k2 bytes) := by
    rw [hM3]
    simp [lookupAL]
  have hr2 := remove_ok_state
    (⟨writeManifestEntry (writeManifestEntry (writeManifestEntry A1 M1) M2) M3, M3⟩ : PackState α)
    k2 (dumpSlot ext ser obj k2 bytes) hs2
  have herase2 : eraseAL M3.slots k2 = [] := by
    rw [hM3]
    simp [eraseAL]
  rw [herase2] at hr2
  simp only [List.map_nil] at hr2
  refine ⟨⟨writeManifestEntry A1 M1, M1⟩, ⟨writeManifestEntry (writeManifestEntry A1 M1) M2, M2⟩,
    hd1, hd2, rfl, hliveP2, ?_, ?_, ?_, ?_⟩
  · rw [hr1']
  · rw [hr1']
    exact (hliveP3 _).mpr rfl
  · rw [hr1', hr2]
  · rw [hr1', hr2]
    dsimp only
    intro n
    exact isLive_cleanup_all _ n

theorem isLive_fresh {α : Type} (m : Manifest α) (n : String) :
    isLive (writeManifestEntry [] m) n = false := by
  by_cases h : n = manifestName
  · subst h
    simp [isLive]
  · unfold writeManifestEntry
    rw [show ([] : List ZEntry) ++ [⟨manifestName, manifestBytes m⟩]
        = ([] : List ZEntry) ++ [⟨manifestName, manifestBytes m⟩] from rfl,
      isLive_snoc_ne [] _ n (fun he => h he.symm)]
    simp [isLive, lastEntry?]

/-- C3 witness: the amended dedup-and-prune law applied on a fresh pack
with the demo serializer, keys `"a"` and `"b"`, object 5. -/
theorem C3_dedup_and_prune_witness :
    ∃ p1 p2 : PackState Nat,
      Pack.dump demoExt [natSerializer] (PackState.fresh Nat) "a" 5 = (.ok (), p1) ∧
      Pack.dump demoExt [natSerializer] p1 "b" 5 = (.ok (), p2) ∧
      p2.archive = writeManifestEntry p1.archive p2.manifest ∧
      (∀ n, isLive p2.archive n = true ↔ n = demoExt.hash [5] ++ ".slot") ∧
      (Pack.remove p2 "a").1 = .ok () ∧
      isLive (Pack.remove p2 "a").2.archive (demoExt.hash [5] ++ ".slot") = true ∧
      (Pack.remove (Pack.remove p2 "a").2 "b").1 = .ok () ∧
      ∀ n, isLive (Pack.remove (Pack.remove p2 "a").2 "b").2.archive n = false :=
  C3_dedup_and_prune demoExt [natSerializer] (PackState.fresh Nat) "a" "b" 5
    natSerializer [5] (fun _ _ => rfl) rfl (fun n => isLive_fresh _ n)
    (by decide) rfl rfl (by decide)

/-- A registered codec whose encoding is empty for every object. -/
def emptySerializer : Serializer Nat :=
  { tag := "empty"
    canSerialize := fun _ => true
    dump := fun _ => .ok []
    dumpDeps := fun _ => []
    load := fun _ => .ok 0
    equiv := Eq }

/-- C3 counterexample: with a registered codec whose encoding is empty,
`dump(o, "a"); dump(o, "b")` succeeds but leaves *zero* live payload
entries (a zero-length entry is never live), refuting the claim's
"exactly one live payload entry". -/
theorem C3_counterexample :
    (Pack.dump demoExt [emptySerializer] (PackState.fresh Nat) "a" 0).1 = .ok () ∧
    (Pack.dump demoExt [emptySerializer]
      (Pack.dump demoExt [emptySerializer] (PackState.fresh Nat) "a" 0).2 "b" 0).1 = .ok () ∧
    liveNames (Pack.dump demoExt [emptySerializer]
      (Pack.dump demoExt [emptySerializer] (PackState.fresh Nat) "a" 0).2 "b" 0).2.archive
      = [] :=
  ⟨rfl, rfl, rfl⟩

/-! ### Lemmas about `Manifest.fromDict` -/

theorem fromDict_version_ok {α : Type} (reg : List (Serializer α))
    (depReg : DepRegistry) (ext : ExternalEnv) (d : List (String × JValue))
    (hv : lookupAL d "version" = some (.num 2)) :
    Manifest.fromDict reg depReg ext d =
      (match depsField d with
       | .error e => .error e
       | .ok dfs =>
         match depsFromDict depReg ext dfs with
         | .error e => .error e
         | .ok deps =>
           match slotsField d with
           | .error e => .error e
           | .ok sfs =>
             match slotsFromDict reg deps sfs with
             | .error e => .error e
             | .ok slots => .ok ⟨mkDict slots, mkDict deps⟩) := by
  unfold Manifest.fromDict
  rw [hv]
  rfl

theorem fromDict_stages {α : Type} (reg : List (Serializer α))
    (depReg : DepRegistry) (ext : ExternalEnv) (d : List (String × JValue))
    (dfs : List (String × JValue)) (deps : List (String × ContextDep))
    (sfs : List (String × JValue))
    (hv : lookupAL d "version" = some (.num 2))
    (hdf : depsField d = .ok dfs)
    (hdeps : depsFromDict depReg ext dfs = .ok deps)
    (hsf : slotsField d = .ok sfs) :
    Manifest.fromDict reg depReg ext d =
      (match slotsFromDict reg deps sfs with
       | .error e => .error e
       | .ok slots => .ok ⟨mkDict slots, mkDict deps⟩) := by
  rw [fromDict_version_ok reg depReg ext d hv]
  simp only [hdf, hdeps, hsf]

theorem slotFromDict_single {α : Type} (reg : List (Serializer α))
    (k hsh t : String) (mdeps : List (String × ContextDep)) :
    slotFromDict reg k (.obj [("serialized_sha256_hash", .str hsh),
      ("serializer", .str t), ("dependencies", .arr [])]) mdeps
      = match getSerializerByType reg t with
        | .error e => .error e
        | .ok ser => .ok ⟨k, ser, hsh, []⟩ := rfl

theorem slotsFromDict_single {α : Type} (reg : List (Serializer α))
    (mdeps : List (String × ContextDep)) (k : String) (data : JValue) :
    slotsFromDict reg mdeps [(k, data)]
      = match slotFromDict reg k data mdeps with
        | .error e => .error e
        | .ok slot => .ok [(k, slot)] := by
  show (match slotFromDict reg k data mdeps with
    | Except.error e => Except.error e
    | Except.ok slot =>
      match slotsFromDict reg mdeps [] with
      | Except.error e => Except.error e
      | Except.ok tail => Except.ok ((k, slot) :: tail)) = _
  rcases hsv : slotFromDict reg k data mdeps with e | slot
  · simp only [hsv]
  · simp only [hsv]
    rfl

/-- The manifest dictionary of a pack holding one dependency-free slot
`k` with payload hash `hsh` and serializer tag `t`. -/
def singleSlotManifestDict (k hsh t : String) : List (String × JValue) :=
  [("version", .num 2), ("dependencies", .obj []),
   ("slots", .obj [(k, .obj [("serialized_sha256_hash", .str hsh),
                             ("serializer", .str t),
                             ("dependencies", .arr [])])])]

/-- C9: a pack whose manifest references a serializer (codec) tag that is
not in the registry fails with `UnknownSerializer` when opened and loaded,
and the caller recovers by registering a codec with that tag and retrying:
the same open-and-load then decodes the payload successfully. -/
theorem C9_unknown_codec_and_recovery {α : Type} (ext : ExternalEnv)
    (reg : List (Serializer α)) (depReg : DepRegistry) (archive : List ZEntry)
    (k hsh t : String) (s : Serializer α) (e : ZEntry) (r : α) :
    ((∀ u ∈ reg, u.tag ≠ t) →
      openAndLoad ext reg depReg archive (singleSlotManifestDict k hsh t) k
        = .error .unknownSerializer) ∧
    (s.tag = t →
      lastEntry? archive (hsh ++ ".slot") = some e →
      ext.hash e.content = hsh →
      s.load e.content = .ok r →
      openAndLoad ext (registerSerializer reg s) depReg archive
        (singleSlotManifestDict k hsh t) k = .ok r) := by
  have hfd : ∀ reg2 : List (Serializer α),
      Manifest.fromDict reg2 depReg ext (singleSlotManifestDict k hsh t)
        = match getSerializerByType reg2 t with
          | .error e => .error e
          | .ok ser => .ok ⟨[(k, ⟨k, ser, hsh, []⟩)], []⟩ := by
    intro reg2
    rw [fromDict_stages reg2 depReg ext (singleSlotManifestDict k hsh t) [] []
        [(k, .obj [("serialized_sha256_hash", .str hsh), ("serializer", .str t),
                   ("dependencies", .arr [])])] rfl rfl rfl rfl,
      slotsFromDict_single, slotFromDict_single]
    rcases hg : getSerializerByType reg2 t with e2 | ser
    · simp only [hg]
    · simp only [hg]
      rfl
  constructor
  · intro hnone
    have h1 : getSerializerByType reg t = .error .unknownSerializer := by
      unfold getSerializerByType
      rw [List.find?_eq_none.mpr (fun u hu => by simp [hnone u hu])]
    unfold openAndLoad
    rw [hfd reg, h1]
  · intro hst hlast hhash hload
    have h2 : getSerializerByType (registerSerializer reg s) t = .ok s := by
      unfold getSerializerByType registerSerializer
      rw [List.find?_cons_of_pos _ (by simpa using hst)]
    unfold openAndLoad
    rw [hfd (registerSerializer reg s), h2]
    show Pack.load ext ⟨archive, ⟨[(k, ⟨k, s, hsh, []⟩)], []⟩⟩ k = .ok r
    rw [load_decode ext ⟨archive, ⟨[(k, ⟨k, s, hsh, []⟩)], []⟩⟩ k ⟨k, s, hsh, []⟩ e
      (by simp [lookupAL]) rfl hlast hhash]
    exact hload

/-- C9 witness: with an empty registry the single-slot pack fails with
`UnknownSerializer`; after registering the `"nat"` codec the same load
returns the payload. -/
theorem C9_unknown_codec_and_recovery_witness :
    openAndLoad demoExt ([] : List (Serializer Nat)) mlioDepRegistry
      [⟨demoExt.hash [5] ++ ".slot", [5]⟩]
      (singleSlotManifestDict "s" (demoExt.hash [5]) "nat") "s"
      = .error .unknownSerializer ∧
    openAndLoad demoExt (registerSerializer ([] : List (Serializer Nat)) natSerializer)
      mlioDepRegistry [⟨demoExt.hash [5] ++ ".slot", [5]⟩]
      (singleSlotManifestDict "s" (demoExt.hash [5]) "nat") "s"
      = .ok 5 := by
  refine ⟨(C9_unknown_codec_and_recovery demoExt [] mlioDepRegistry
      [⟨demoExt.hash [5] ++ ".slot", [5]⟩] "s" (demoExt.hash [5]) "nat"
      natSerializer ⟨demoExt.hash [5] ++ ".slot", [5]⟩ 5).1 ?_,
    (C9_unknown_codec_and_recovery demoExt [] mlioDepRegistry
      [⟨demoExt.hash [5] ++ ".slot", [5]⟩] "s" (demoExt.hash [5]) "nat"
      natSerializer ⟨demoExt.hash [5] ++ ".slot", [5]⟩ 5).2 rfl ?_ rfl rfl⟩
  · intro u hu
    cases hu
  · simp [lastEntry?]

end MLIO
